import Mathlib

/-!
Verification of the SH Batch Grid Builder core (`sh_batch_grid_builder/geo.py`).

The Python module computes, for an input geometry collection, a bounding box
snapped to a CRS-wide pixel grid and, when the box exceeds a maximum pixel
dimension, splits it into a row-major grid of tiles.  Coordinates and
resolutions are embedded as rationals (`ℚ`), pixel counts as integers (`ℤ`,
matching Python's unbounded `int`), and the fallible constructor and the
fallible bounding-box builder return `Except` values whose error constructors
carry the data reported in the corresponding Python exception messages.
-/

/-- A rectangle as produced by shapely's `box(minx, miny, maxx, maxy)`. -/
structure Rect where
  minx : ℚ
  miny : ℚ
  maxx : ℚ
  maxy : ℚ

/-- One entry of the `geometries` list built in
`GeoData.create_aligned_bounding_box` (geo.py lines 114-141): a dict with keys
`geometry`, `width`, `height`. -/
structure Geom where
  geometry : Rect
  width : ℤ
  height : ℤ

/-- One row of the final GeoDataFrame (geo.py lines 143-149), with columns
`id`, `identifier`, `width`, `height`, `geometry`. -/
structure Record where
  id : ℕ
  identifier : String
  width : ℤ
  height : ℤ
  geometry : Rect

/-- The aggregate extent `(minx, miny, maxx, maxy)` returned by
`gdf.total_bounds` (geo.py line 30). -/
structure Bounds where
  minx : ℚ
  miny : ℚ
  maxx : ℚ
  maxy : ℚ

/-- Modelled from the spec: the external Geometry Collection Reader
(`gpd.read_file`, geo.py lines 78-80) supplies only the collection's aggregate
planar extent and its CRS code (`gdf.crs.to_epsg()`, which is `None` when no
EPSG code is determinable). -/
structure InputFile where
  total_bounds : Bounds
  crs_to_epsg : Option ℤ

/-- Observable steps of `GeoData.__init__` (geo.py lines 21-37) that touch the
input geometry: the file is read (line 28) and its bounds are computed
(line 30) before any validation runs. -/
inductive Event where
  | readFile : Event
  | boundsComputed : Event
deriving DecidableEq

/-- Errors raised by `GeoData.__init__` via `_validate_resolutions`
(geo.py lines 39-43) and `_validate_epsg` (geo.py lines 45-57).  Each
constructor carries the values interpolated into the Python `ValueError`
message. -/
inductive InitErr where
  | resolutionX : ℚ → InitErr
  | resolutionY : ℚ → InitErr
  | noEpsgCode : ℤ → InitErr
  | epsgMismatch : ℤ → ℤ → InitErr
deriving DecidableEq

/-- The one runtime failure reachable in
`GeoData.create_aligned_bounding_box`: Python's `ZeroDivisionError` from
`width_px / max_pixels` when `max_pixels == 0` (geo.py line 120). -/
inductive CreateErr where
  | zeroDivisionError : CreateErr
deriving DecidableEq

/-- Python's built-in `round` (banker's rounding, half to even) composed with
`int(...)`, as used at geo.py lines 111-112. -/
def py_round (q : ℚ) : ℤ :=
  if q - ⌊q⌋ < 1 / 2 then ⌊q⌋
  else if 1 / 2 < q - ⌊q⌋ then ⌊q⌋ + 1
  else if ⌊q⌋ % 2 = 0 then ⌊q⌋ else ⌊q⌋ + 1

/-- `GeoData._align_axis` (geo.py lines 59-71): snap `[minv, maxv]` outward to
the grid `{origin + k * res : k ∈ ℤ}`, then recompute the upper edge so the
span is an exact multiple of `res`. -/
def _align_axis (minv maxv origin res : ℚ) : ℚ × ℚ :=
  let aligned_min := origin + ⌊(minv - origin) / res⌋ * res
  let aligned_max := origin + ⌈(maxv - origin) / res⌉ * res
  let size := aligned_max - aligned_min
  let steps := ⌈size / res⌉
  (aligned_min, aligned_min + steps * res)

/-- `GeoData._split_pixel_counts` (geo.py lines 73-76).  Python's `//` is
floor division (`Int.fdiv`) and `%` follows the divisor's sign (`Int.fmod`);
`range(parts)` is empty for non-positive `parts`. -/
def _split_pixel_counts (total parts : ℤ) : List ℤ :=
  (List.range parts.toNat).map fun (i : ℕ) =>
    if (i : ℤ) < total.fmod parts then total.fdiv parts + 1 else total.fdiv parts

/-- The inner loop of the split branch (geo.py lines 130-140): walk an x
cursor across the width partition, emitting one geometry per width. -/
def innerLoop (res_x y_min y_max : ℚ) (tile_h : ℤ) : ℚ → List ℤ → List Geom
  | _, [] => []
  | x_min, tile_w :: ws =>
    ⟨⟨x_min, y_min, x_min + tile_w * res_x, y_max⟩, tile_w, tile_h⟩ ::
      innerLoop res_x y_min y_max tile_h (x_min + tile_w * res_x) ws

/-- The outer loop of the split branch (geo.py lines 126-141): walk a y cursor
across the height partition, appending one inner row per height. -/
def outerLoop (res_x res_y x0 : ℚ) (widths : List ℤ) : ℚ → List ℤ → List Geom
  | _, [] => []
  | y_min, tile_h :: hs =>
    innerLoop res_x y_min (y_min + tile_h * res_y) tile_h x0 widths ++
      outerLoop res_x res_y x0 widths (y_min + tile_h * res_y) hs

/-- The sequential numbering of geo.py lines 143-149: ids are
`range(1, len + 1)` and `identifier` is `str(id)`; `numberRecordsFrom 1`
realises this pairing. -/
def numberRecordsFrom (k : ℕ) : List Geom → List Record
  | [] => []
  | g :: gs => ⟨k, Nat.repr k, g.width, g.height, g.geometry⟩ :: numberRecordsFrom (k + 1) gs

/-- The x (resp. y) cursor position of the split branch after the first `j`
widths (resp. heights) have been consumed, starting from `a`. -/
def cum (a res : ℚ) (ws : List ℤ) (j : ℕ) : ℚ :=
  a + ((ws.take j).sum : ℤ) * res

/-- The state assembled by `GeoData.__init__` (geo.py lines 21-37). -/
structure GeoData where
  gdf : InputFile
  crs : ℤ
  bounds : Bounds
  resolution_x : ℚ
  resolution_y : ℚ
  epsg_code : ℤ

/-- `GeoData.__init__` (geo.py lines 21-37) with the geometry-touching steps
recorded as an event trace: `read_geodata` (line 28) and the `total_bounds`
computation (line 30) run unconditionally, then `_validate_resolutions`
(lines 39-43, X before Y) and `_validate_epsg` (lines 45-57, undetermined
code before mismatch) may raise. -/
def GeoData.init (filepath : InputFile) (epsg_code : ℤ) (resolution_x resolution_y : ℚ) :
    List Event × Except InitErr GeoData :=
  let events := [Event.readFile, Event.boundsComputed]
  if resolution_x ≤ 0 then (events, .error (.resolutionX resolution_x))
  else if resolution_y ≤ 0 then (events, .error (.resolutionY resolution_y))
  else
    match filepath.crs_to_epsg with
    | none => (events, .error (.noEpsgCode epsg_code))
    | some detected =>
      if detected ≠ epsg_code then (events, .error (.epsgMismatch detected epsg_code))
      else (events, .ok ⟨filepath, epsg_code, filepath.total_bounds, resolution_x, resolution_y, epsg_code⟩)

/-- The half-pixel origin shift of geo.py lines 94-98: `get_crs_data` is the
external Grid Origin Resolver (module `sh_batch_grid_builder/crs.py`, not part
of the core source; modelled from the spec as a pure lookup `gc`). -/
def GeoData.shifted_origin (g : GeoData) (gc : ℤ → ℚ × ℚ) : ℚ × ℚ :=
  ((gc g.crs).1 - g.resolution_x / 2, (gc g.crs).2 - g.resolution_y / 2)

/-- The x-axis alignment call of geo.py lines 103-105. -/
def GeoData.alignedX (g : GeoData) (gc : ℤ → ℚ × ℚ) : ℚ × ℚ :=
  _align_axis g.bounds.minx g.bounds.maxx (g.shifted_origin gc).1 g.resolution_x

/-- The y-axis alignment call of geo.py lines 106-108. -/
def GeoData.alignedY (g : GeoData) (gc : ℤ → ℚ × ℚ) : ℚ × ℚ :=
  _align_axis g.bounds.miny g.bounds.maxy (g.shifted_origin gc).2 g.resolution_y

/-- `width_px = int(round((aligned_maxx - aligned_minx) / self.resolution_x))`
(geo.py line 111). -/
def GeoData.width_px (g : GeoData) (gc : ℤ → ℚ × ℚ) : ℤ :=
  py_round (((g.alignedX gc).2 - (g.alignedX gc).1) / g.resolution_x)

/-- `height_px = int(round((aligned_maxy - aligned_miny) / self.resolution_y))`
(geo.py line 112). -/
def GeoData.height_px (g : GeoData) (gc : ℤ → ℚ × ℚ) : ℤ :=
  py_round (((g.alignedY gc).2 - (g.alignedY gc).1) / g.resolution_y)

/-- `tiles_x = max(1, math.ceil(width_px / max_pixels))` (geo.py line 120);
Python `/` is exact real division here, embedded over `ℚ`. -/
def GeoData.tiles_x (g : GeoData) (gc : ℤ → ℚ × ℚ) (max_pixels : ℤ) : ℤ :=
  max 1 ⌈(g.width_px gc : ℚ) / (max_pixels : ℚ)⌉

/-- `tiles_y = max(1, math.ceil(height_px / max_pixels))` (geo.py line 121). -/
def GeoData.tiles_y (g : GeoData) (gc : ℤ → ℚ × ℚ) (max_pixels : ℤ) : ℤ :=
  max 1 ⌈(g.height_px gc : ℚ) / (max_pixels : ℚ)⌉

/-- `GeoData.create_aligned_bounding_box` (geo.py lines 82-151).  When
`max_pixels = 0` the first statement of the split branch (line 120) raises
`ZeroDivisionError` in Python; that is the `.error` case here. -/
def GeoData.create_aligned_bounding_box (g : GeoData) (gc : ℤ → ℚ × ℚ) (max_pixels : ℤ) :
    Except CreateErr (List Record) :=
  if g.width_px gc ≤ max_pixels ∧ g.height_px gc ≤ max_pixels then
    .ok (numberRecordsFrom 1
      [⟨⟨(g.alignedX gc).1, (g.alignedY gc).1, (g.alignedX gc).2, (g.alignedY gc).2⟩,
        g.width_px gc, g.height_px gc⟩])
  else if max_pixels = 0 then
    .error .zeroDivisionError
  else
    .ok (numberRecordsFrom 1
      (outerLoop g.resolution_x g.resolution_y (g.alignedX gc).1
        (_split_pixel_counts (g.width_px gc) (g.tiles_x gc max_pixels))
        (g.alignedY gc).1
        (_split_pixel_counts (g.height_px gc) (g.tiles_y gc max_pixels))))

/-! ### Facts about `py_round` and `_align_axis` -/

lemma py_round_intCast (n : ℤ) : py_round (n : ℚ) = n := by
  have h0 : ((n : ℚ) - (⌊(n : ℚ)⌋ : ℚ)) = 0 := by
    rw [Int.floor_intCast]; ring
  unfold py_round
  rw [h0, if_pos (by norm_num : (0 : ℚ) < 1 / 2)]
  exact Int.floor_intCast n

/-- Closed form of `_align_axis`: the floating-point correction step of
geo.py lines 67-69 is, in exact arithmetic, the identity on the snapped upper
edge. -/
lemma align_axis_eq (minv maxv origin res : ℚ) (hres : res ≠ 0) :
    _align_axis minv maxv origin res =
      (origin + ⌊(minv - origin) / res⌋ * res,
       origin + ⌈(maxv - origin) / res⌉ * res) := by
  unfold _align_axis
  set f : ℤ := ⌊(minv - origin) / res⌋ with hf
  set c : ℤ := ⌈(maxv - origin) / res⌉ with hc
  have hsize : (origin + (c : ℚ) * res - (origin + (f : ℚ) * res)) / res
      = ((c - f : ℤ) : ℚ) := by
    push_cast
    field_simp
    ring
  simp only [hsize, Int.ceil_intCast, Prod.mk.injEq]
  constructor
  · trivial
  · push_cast
    ring

/-- C1: grid-snap correctness of `_align_axis`: the output interval contains
the input, its lower edge is the greatest grid line `origin + k * res` that is
at most `minv`, and its span is an exact integer multiple of `res`. -/
theorem c1_align_axis_grid_snap (minv maxv origin res : ℚ)
    (hmm : minv ≤ maxv) (hres : 0 < res) :
    (_align_axis minv maxv origin res).1 ≤ minv ∧ minv ≤ maxv ∧
    maxv ≤ (_align_axis minv maxv origin res).2 ∧
    (∃ k : ℤ, (_align_axis minv maxv origin res).1 = origin + k * res ∧
      ∀ k' : ℤ, origin + (k' : ℚ) * res ≤ minv →
        origin + (k' : ℚ) * res ≤ (_align_axis minv maxv origin res).1) ∧
    (∃ m : ℤ, (_align_axis minv maxv origin res).2 - (_align_axis minv maxv origin res).1
      = (m : ℚ) * res) := by
  have hne : res ≠ 0 := ne_of_gt hres
  rw [align_axis_eq minv maxv origin res hne]
  dsimp only
  set f : ℤ := ⌊(minv - origin) / res⌋ with hf
  set c : ℤ := ⌈(maxv - origin) / res⌉ with hc
  have hfle : (f : ℚ) * res ≤ minv - origin := by
    have h1 : (f : ℚ) ≤ (minv - origin) / res := Int.floor_le _
    have h2 : (f : ℚ) * res ≤ ((minv - origin) / res) * res :=
      mul_le_mul_of_nonneg_right h1 (le_of_lt hres)
    rwa [div_mul_cancel₀ _ hne] at h2
  have hcle : maxv - origin ≤ (c : ℚ) * res := by
    have h1 : (maxv - origin) / res ≤ (c : ℚ) := Int.le_ceil _
    have h2 : ((maxv - origin) / res) * res ≤ (c : ℚ) * res :=
      mul_le_mul_of_nonneg_right h1 (le_of_lt hres)
    rwa [div_mul_cancel₀ _ hne] at h2
  refine ⟨by linarith, hmm, by linarith, ⟨f, rfl, ?_⟩, ⟨c - f, by push_cast; ring⟩⟩
  intro k' hk'
  have h1 : (k' : ℚ) * res ≤ minv - origin := by linarith
  have h2 : (k' : ℚ) ≤ (minv - origin) / res := by
    rw [le_div_iff₀ hres]
    exact h1
  have h3 : k' ≤ f := Int.le_floor.mpr h2
  have h4 : (k' : ℚ) ≤ (f : ℚ) := by exact_mod_cast h3
  have h5 : (k' : ℚ) * res ≤ (f : ℚ) * res :=
    mul_le_mul_of_nonneg_right h4 (le_of_lt hres)
  linarith

/-- C1 witness at extent `[5, 25]`, origin `0`, resolution `10`. -/
theorem c1_align_axis_grid_snap_witness :
    (5 : ℚ) ≤ 25 ∧ (0 : ℚ) < 10 ∧
    ((_align_axis 5 25 0 10).1 ≤ 5 ∧ (5 : ℚ) ≤ 25 ∧
      25 ≤ (_align_axis 5 25 0 10).2 ∧
      (∃ k : ℤ, (_align_axis 5 25 0 10).1 = 0 + (k : ℚ) * 10 ∧
        ∀ k' : ℤ, 0 + (k' : ℚ) * 10 ≤ 5 →
          0 + (k' : ℚ) * 10 ≤ (_align_axis 5 25 0 10).1) ∧
      (∃ m : ℤ, (_align_axis 5 25 0 10).2 - (_align_axis 5 25 0 10).1 = (m : ℚ) * 10)) :=
  ⟨by norm_num, by norm_num,
    c1_align_axis_grid_snap 5 25 0 10 (by norm_num) (by norm_num)⟩

/-- C9: `_align_axis` is the identity on intervals whose endpoints already lie
on the grid `{origin + k * res : k ∈ ℤ}`. -/
theorem c9_align_axis_idempotent (origin res : ℚ) (a b : ℤ)
    (hres : 0 < res) (hab : a ≤ b) :
    _align_axis (origin + (a : ℚ) * res) (origin + (b : ℚ) * res) origin res
      = (origin + (a : ℚ) * res, origin + (b : ℚ) * res) := by
  have hne : res ≠ 0 := ne_of_gt hres
  rw [align_axis_eq _ _ _ _ hne]
  have ha : (origin + (a : ℚ) * res - origin) / res = ((a : ℤ) : ℚ) := by
    field_simp
  have hb : (origin + (b : ℚ) * res - origin) / res = ((b : ℤ) : ℚ) := by
    field_simp
  rw [ha, hb, Int.floor_intCast, Int.ceil_intCast]

/-- C9 witness: the already-aligned interval `[10, 40]` on grid origin `0`,
resolution `10` is returned unchanged. -/
theorem c9_align_axis_idempotent_witness :
    (0 : ℚ) < 10 ∧ (1 : ℤ) ≤ 4 ∧
    _align_axis (0 + (1 : ℚ) * 10) (0 + (4 : ℚ) * 10) 0 10
      = (0 + (1 : ℚ) * 10, 0 + (4 : ℚ) * 10) :=
  ⟨by norm_num, by norm_num,
    c9_align_axis_idempotent 0 10 1 4 (by norm_num) (by norm_num)⟩

/-! ### Facts about `_split_pixel_counts` -/

lemma split_pixel_counts_length (total parts : ℤ) :
    (_split_pixel_counts total parts).length = parts.toNat := by
  unfold _split_pixel_counts
  rw [List.length_map, List.length_range]

lemma split_pixel_counts_getElem (total parts : ℤ) (i : ℕ)
    (h : i < (_split_pixel_counts total parts).length) :
    (_split_pixel_counts total parts)[i]
      = if (i : ℤ) < total.fmod parts then total.fdiv parts + 1 else total.fdiv parts := by
  unfold _split_pixel_counts at h ⊢
  simp only [List.getElem_map, List.getElem_range]

lemma sum_ite_range (b r : ℤ) (hr : 0 ≤ r) (n : ℕ) :
    ((List.range n).map (fun (i : ℕ) => if (i : ℤ) < r then b + 1 else b)).sum
      = (n : ℤ) * b + min r (n : ℤ) := by
  induction n with
  | zero => simp [min_eq_right hr]
  | succ n ih =>
    rw [List.range_succ, List.map_append, List.sum_append, ih]
    simp only [List.map_cons, List.map_nil, List.sum_cons, List.sum_nil, add_zero]
    push_cast
    split_ifs with h
    · rw [min_eq_right (by omega : (n : ℤ) ≤ r), min_eq_right (by omega : (n : ℤ) + 1 ≤ r)]
      ring
    · rw [min_eq_left (by omega : r ≤ (n : ℤ)), min_eq_left (by omega : r ≤ (n : ℤ) + 1)]
      ring

lemma split_pixel_counts_sum (total parts : ℤ) (h1 : 1 ≤ parts) :
    (_split_pixel_counts total parts).sum = total := by
  have hp0 : (0 : ℤ) ≤ parts := by omega
  have hppos : (0 : ℤ) < parts := by omega
  have htn : ((parts.toNat : ℕ) : ℤ) = parts := Int.toNat_of_nonneg hp0
  have hmod0 : 0 ≤ total % parts := Int.emod_nonneg total (by omega)
  have hmodlt : total % parts < parts := Int.emod_lt_of_pos total hppos
  unfold _split_pixel_counts
  rw [Int.fmod_eq_emod _ hp0, Int.fdiv_eq_ediv _ hp0,
    sum_ite_range (total / parts) (total % parts) hmod0 parts.toNat, htn,
    min_eq_left (by omega)]
  exact Int.ediv_add_emod total parts

/-- C4: `_split_pixel_counts total parts` returns exactly `parts` integers
summing to `total`; the first `total % parts` entries are `total / parts + 1`,
the rest are `total / parts`, and all entries are positive when
`total ≥ parts`. -/
theorem c4_split_pixel_counts_partition (total parts : ℤ)
    (h0 : 0 ≤ total) (h1 : 1 ≤ parts) :
    ((_split_pixel_counts total parts).length : ℤ) = parts ∧
    (_split_pixel_counts total parts).sum = total ∧
    (∀ (i : ℕ) (h : i < (_split_pixel_counts total parts).length),
      ((i : ℤ) < total % parts → (_split_pixel_counts total parts)[i] = total / parts + 1) ∧
      (total % parts ≤ (i : ℤ) → (_split_pixel_counts total parts)[i] = total / parts)) ∧
    (parts ≤ total → ∀ w ∈ _split_pixel_counts total parts, 0 < w) := by
  have hp0 : (0 : ℤ) ≤ parts := by omega
  have hppos : (0 : ℤ) < parts := by omega
  refine ⟨?_, split_pixel_counts_sum total parts h1, ?_, ?_⟩
  · rw [split_pixel_counts_length]
    exact Int.toNat_of_nonneg hp0
  · intro i h
    rw [split_pixel_counts_getElem total parts i h,
      Int.fmod_eq_emod _ hp0, Int.fdiv_eq_ediv _ hp0]
    constructor
    · intro hlt
      rw [if_pos hlt]
    · intro hge
      rw [if_neg (not_lt.mpr hge)]
  · intro hpt w hw
    have hbase : 1 ≤ total / parts := by
      rw [Int.le_ediv_iff_mul_le hppos]
      omega
    unfold _split_pixel_counts at hw
    obtain ⟨i, _, rfl⟩ := List.mem_map.mp hw
    rw [Int.fdiv_eq_ediv _ hp0]
    split_ifs <;> linarith

/-- C4 witness: `_split_pixel_counts 10 3 = [4, 3, 3]` satisfies the
partition properties. -/
theorem c4_split_pixel_counts_partition_witness :
    (0 : ℤ) ≤ 10 ∧ (1 : ℤ) ≤ 3 ∧
    (((_split_pixel_counts 10 3).length : ℤ) = 3 ∧
      (_split_pixel_counts 10 3).sum = 10 ∧
      (∀ (i : ℕ) (h : i < (_split_pixel_counts 10 3).length),
        ((i : ℤ) < 10 % 3 → (_split_pixel_counts 10 3)[i] = 10 / 3 + 1) ∧
        ((10 : ℤ) % 3 ≤ (i : ℤ) → (_split_pixel_counts 10 3)[i] = 10 / 3)) ∧
      ((3 : ℤ) ≤ 10 → ∀ w ∈ _split_pixel_counts 10 3, 0 < w)) :=
  ⟨by norm_num, by norm_num,
    c4_split_pixel_counts_partition 10 3 (by norm_num) (by norm_num)⟩

/-! ### The cursor walk of the split branch -/

lemma cum_zero (a res : ℚ) (ws : List ℤ) : cum a res ws 0 = a := by
  simp [cum]

lemma cum_cons (a res : ℚ) (w : ℤ) (ws : List ℤ) (j : ℕ) :
    cum a res (w :: ws) (j + 1) = cum (a + (w : ℚ) * res) res ws j := by
  unfold cum
  rw [List.take_succ_cons, List.sum_cons]
  push_cast
  ring

lemma cum_succ_getElem (a res : ℚ) (ws : List ℤ) (j : ℕ) (hj : j < ws.length) :
    cum a res ws (j + 1) = cum a res ws j + (ws[j] : ℚ) * res := by
  unfold cum
  rw [List.sum_take_succ ws j hj]
  push_cast
  ring

lemma cum_le_succ (a res : ℚ) (ws : List ℤ) (j : ℕ)
    (hw : ∀ w ∈ ws, 0 ≤ w) (hres : 0 ≤ res) :
    cum a res ws j ≤ cum a res ws (j + 1) := by
  by_cases hj : j < ws.length
  · rw [cum_succ_getElem a res ws j hj]
    have h1 : (0 : ℤ) ≤ ws[j] := hw _ (List.getElem_mem hj)
    have h2 : (0 : ℚ) ≤ (ws[j] : ℚ) := by exact_mod_cast h1
    nlinarith
  · push_neg at hj
    unfold cum
    rw [List.take_of_length_le hj, List.take_of_length_le (by omega)]

lemma cum_mono (a res : ℚ) (ws : List ℤ) (j k : ℕ)
    (hw : ∀ w ∈ ws, 0 ≤ w) (hres : 0 ≤ res) (hjk : j ≤ k) :
    cum a res ws j ≤ cum a res ws k := by
  induction k, hjk using Nat.le_induction with
  | base => exact le_refl _
  | succ k hk ih => exact le_trans ih (cum_le_succ a res ws k hw hres)

lemma cum_length (a res : ℚ) (ws : List ℤ) :
    cum a res ws ws.length = a + (ws.sum : ℚ) * res := by
  unfold cum
  rw [List.take_length]

lemma cum_cover (ws : List ℤ) (a res p : ℚ) (hne : ws ≠ [])
    (h1 : a ≤ p) (h2 : p ≤ cum a res ws ws.length) :
    ∃ j, ∃ _ : j < ws.length, cum a res ws j ≤ p ∧ p ≤ cum a res ws (j + 1) := by
  induction ws generalizing a with
  | nil => exact absurd rfl hne
  | cons w ws ih =>
    by_cases hp : p ≤ a + (w : ℚ) * res
    · refine ⟨0, by simp, ?_, ?_⟩
      · rw [cum_zero]; exact h1
      · rw [cum_cons, cum_zero]; exact hp
    · push_neg at hp
      cases ws with
      | nil =>
        exfalso
        have : cum a res [w] 1 = a + (w : ℚ) * res := by
          rw [cum_cons, cum_zero]
        rw [List.length_singleton, this] at h2
        linarith
      | cons w2 ws2 =>
        have h2' : p ≤ cum (a + (w : ℚ) * res) res (w2 :: ws2) (w2 :: ws2).length := by
          have : (w :: w2 :: ws2).length = (w2 :: ws2).length + 1 := rfl
          rw [this, cum_cons] at h2
          exact h2
        obtain ⟨j, hj, h3, h4⟩ := ih (a + (w : ℚ) * res) (by simp) (le_of_lt hp) h2'
        refine ⟨j + 1, by simpa using Nat.succ_lt_succ hj, ?_, ?_⟩
        · rw [cum_cons]; exact h3
        · rw [cum_cons]; exact h4

/-! ### Shape of the loops of the split branch -/

lemma innerLoop_length (res_x y0 y1 : ℚ) (th : ℤ) (x : ℚ) (ws : List ℤ) :
    (innerLoop res_x y0 y1 th x ws).length = ws.length := by
  induction ws generalizing x with
  | nil => rfl
  | cons w ws ih =>
    unfold innerLoop
    rw [List.length_cons, List.length_cons, ih]

lemma innerLoop_getElem (res_x y0 y1 : ℚ) (th : ℤ) (x : ℚ) (ws : List ℤ) (j : ℕ)
    (hj : j < ws.length) (hj' : j < (innerLoop res_x y0 y1 th x ws).length) :
    (innerLoop res_x y0 y1 th x ws)[j]
      = ⟨⟨cum x res_x ws j, y0, cum x res_x ws (j + 1), y1⟩, ws[j], th⟩ := by
  induction ws generalizing x j with
  | nil => exact absurd hj (by simp)
  | cons w ws ih =>
    cases j with
    | zero =>
      show (⟨⟨x, y0, x + (w : ℚ) * res_x, y1⟩, w, th⟩ : Geom) = _
      rw [cum_zero, cum_cons, cum_zero]
      rfl
    | succ j =>
      have hj2 : j < ws.length := by simpa using hj
      have hj2' : j < (innerLoop res_x y0 y1 th (x + (w : ℚ) * res_x) ws).length := by
        rw [innerLoop_length]; exact hj2
      show (innerLoop res_x y0 y1 th (x + (w : ℚ) * res_x) ws)[j] = _
      rw [ih (x + (w : ℚ) * res_x) j hj2 hj2', cum_cons, cum_cons]
      rfl

lemma outerLoop_length (res_x res_y x0 : ℚ) (ws : List ℤ) (y : ℚ) (hs : List ℤ) :
    (outerLoop res_x res_y x0 ws y hs).length = hs.length * ws.length := by
  induction hs generalizing y with
  | nil =>
    rw [show outerLoop res_x res_y x0 ws y [] = [] from rfl]
    simp
  | cons th hs ih =>
    unfold outerLoop
    rw [List.length_append, innerLoop_length, ih, List.length_cons]
    ring

lemma getElem_idx_congr {α : Type} (l : List α) {i i' : ℕ} (h : i < l.length) (e : i = i')
    (h2 : i' < l.length) :
    l[i] = l[i'] := by
  subst e
  rfl

lemma outerLoop_cons (res_x res_y x0 : ℚ) (ws : List ℤ) (y : ℚ) (th : ℤ) (hs : List ℤ) :
    outerLoop res_x res_y x0 ws y (th :: hs)
      = innerLoop res_x y (y + (th : ℚ) * res_y) th x0 ws ++
          outerLoop res_x res_y x0 ws (y + (th : ℚ) * res_y) hs := rfl

lemma outerLoop_getElem (res_x res_y x0 : ℚ) (ws : List ℤ) (y : ℚ) (hs : List ℤ)
    (i j : ℕ) (hi : i < hs.length) (hj : j < ws.length)
    (hm : i * ws.length + j < (outerLoop res_x res_y x0 ws y hs).length) :
    (outerLoop res_x res_y x0 ws y hs)[i * ws.length + j]
      = ⟨⟨cum x0 res_x ws j, cum y res_y hs i, cum x0 res_x ws (j + 1), cum y res_y hs (i + 1)⟩,
          ws[j], hs[i]⟩ := by
  induction hs generalizing y i with
  | nil => exact absurd hi (by simp)
  | cons th hs ih =>
    cases i with
    | zero =>
      have hlen : j < (innerLoop res_x y (y + (th : ℚ) * res_y) th x0 ws).length := by
        rw [innerLoop_length]; exact hj
      rw [outerLoop_cons] at hm
      show (innerLoop res_x y (y + (th : ℚ) * res_y) th x0 ws ++
        outerLoop res_x res_y x0 ws (y + (th : ℚ) * res_y) hs)[0 * ws.length + j] = _
      rw [getElem_idx_congr _ hm (by ring : 0 * ws.length + j = j)
          (by rw [List.length_append]; omega),
        List.getElem_append_left hlen,
        innerLoop_getElem res_x y (y + (th : ℚ) * res_y) th x0 ws j hj hlen,
        cum_zero y res_y (th :: hs), cum_cons y res_y th hs 0, cum_zero,
        List.getElem_cons_zero]
    | succ i =>
      have hi2 : i < hs.length := by simpa using hi
      rw [outerLoop_cons] at hm
      have e : (i + 1) * ws.length + j
          = (innerLoop res_x y (y + (th : ℚ) * res_y) th x0 ws).length
              + (i * ws.length + j) := by
        rw [innerLoop_length, Nat.succ_mul]
        omega
      have hm2 : i * ws.length + j
          < (outerLoop res_x res_y x0 ws (y + (th : ℚ) * res_y) hs).length := by
        rw [outerLoop_length]
        calc i * ws.length + j < i * ws.length + ws.length := by omega
          _ = (i + 1) * ws.length := by rw [Nat.succ_mul]
          _ ≤ hs.length * ws.length := Nat.mul_le_mul_right ws.length (by omega)
      show (innerLoop res_x y (y + (th : ℚ) * res_y) th x0 ws ++
        outerLoop res_x res_y x0 ws (y + (th : ℚ) * res_y) hs)[(i + 1) * ws.length + j] = _
      rw [getElem_idx_congr _ hm e (by rw [List.length_append]; omega),
        List.getElem_append_right (by omega),
        getElem_idx_congr _ (by omega) (by omega :
          (innerLoop res_x y (y + (th : ℚ) * res_y) th x0 ws).length + (i * ws.length + j)
            - (innerLoop res_x y (y + (th : ℚ) * res_y) th x0 ws).length = i * ws.length + j)
          hm2,
        ih (y + (th : ℚ) * res_y) i hi2 hm2,
        cum_cons y res_y th hs i, cum_cons y res_y th hs (i + 1),
        List.getElem_cons_succ]

/-! ### Shape of the sequential numbering -/

lemma numberRecordsFrom_length (k : ℕ) (gs : List Geom) :
    (numberRecordsFrom k gs).length = gs.length := by
  induction gs generalizing k with
  | nil => rfl
  | cons g gs ih =>
    unfold numberRecordsFrom
    rw [List.length_cons, List.length_cons, ih]

lemma numberRecordsFrom_getElem (k : ℕ) (gs : List Geom) (m : ℕ)
    (hm : m < gs.length) (hm' : m < (numberRecordsFrom k gs).length) :
    (numberRecordsFrom k gs)[m]
      = ⟨k + m, Nat.repr (k + m), gs[m].width, gs[m].height, gs[m].geometry⟩ := by
  induction gs generalizing k m with
  | nil => exact absurd hm (by simp)
  | cons g gs ih =>
    cases m with
    | zero =>
      show (⟨k, Nat.repr k, g.width, g.height, g.geometry⟩ : Record) = _
      rfl
    | succ m =>
      have hm2 : m < gs.length := by simpa using hm
      have hm2' : m < (numberRecordsFrom (k + 1) gs).length := by
        rw [numberRecordsFrom_length]; exact hm2
      show (numberRecordsFrom (k + 1) gs)[m] = _
      rw [ih (k + 1) m hm2 hm2', List.getElem_cons_succ]
      have e : k + 1 + m = k + (m + 1) := by omega
      rw [e]

/-! ### Pixel dimensions of the aligned box -/

lemma align_axis_span (minv maxv origin res : ℚ) (hmm : minv ≤ maxv) (hres : 0 < res) :
    0 ≤ py_round (((_align_axis minv maxv origin res).2 - (_align_axis minv maxv origin res).1) / res) ∧
    (_align_axis minv maxv origin res).2
      = (_align_axis minv maxv origin res).1
        + (py_round (((_align_axis minv maxv origin res).2 - (_align_axis minv maxv origin res).1) / res) : ℚ) * res := by
  have hne : res ≠ 0 := ne_of_gt hres
  rw [align_axis_eq minv maxv origin res hne]
  dsimp only
  set f : ℤ := ⌊(minv - origin) / res⌋ with hf
  set c : ℤ := ⌈(maxv - origin) / res⌉ with hc
  have hspan : (origin + (c : ℚ) * res - (origin + (f : ℚ) * res)) / res = ((c - f : ℤ) : ℚ) := by
    push_cast
    field_simp
    ring
  rw [hspan, py_round_intCast]
  have hcf : f ≤ c := by
    calc f ≤ ⌊(maxv - origin) / res⌋ :=
          Int.floor_mono (div_le_div_of_nonneg_right (by linarith) hres.le)
      _ ≤ c := Int.floor_le_ceil _
  refine ⟨by omega, ?_⟩
  push_cast
  ring

lemma width_px_spec (g : GeoData) (gc : ℤ → ℚ × ℚ)
    (hres : 0 < g.resolution_x) (hbb : g.bounds.minx ≤ g.bounds.maxx) :
    0 ≤ g.width_px gc ∧
    (g.alignedX gc).2 = (g.alignedX gc).1 + (g.width_px gc : ℚ) * g.resolution_x := by
  unfold GeoData.width_px GeoData.alignedX
  exact align_axis_span g.bounds.minx g.bounds.maxx (g.shifted_origin gc).1 g.resolution_x hbb hres

lemma height_px_spec (g : GeoData) (gc : ℤ → ℚ × ℚ)
    (hres : 0 < g.resolution_y) (hbb : g.bounds.miny ≤ g.bounds.maxy) :
    0 ≤ g.height_px gc ∧
    (g.alignedY gc).2 = (g.alignedY gc).1 + (g.height_px gc : ℚ) * g.resolution_y := by
  unfold GeoData.height_px GeoData.alignedY
  exact align_axis_span g.bounds.miny g.bounds.maxy (g.shifted_origin gc).2 g.resolution_y hbb hres

/-! ### Bounds on the tile partition entries -/

lemma tiles_mul_ge (t m : ℤ) (hm : 1 ≤ m) : t ≤ max 1 ⌈(t : ℚ) / (m : ℚ)⌉ * m := by
  have hmq : (0 : ℚ) < (m : ℚ) := by exact_mod_cast (by omega : (0 : ℤ) < m)
  have h1 : (t : ℚ) / (m : ℚ) ≤ (⌈(t : ℚ) / (m : ℚ)⌉ : ℚ) := Int.le_ceil _
  have h2 : ((⌈(t : ℚ) / (m : ℚ)⌉ : ℤ) : ℚ) ≤ ((max 1 ⌈(t : ℚ) / (m : ℚ)⌉ : ℤ) : ℚ) := by
    exact_mod_cast le_max_right 1 ⌈(t : ℚ) / (m : ℚ)⌉
  have h3 : (t : ℚ) ≤ ((max 1 ⌈(t : ℚ) / (m : ℚ)⌉ : ℤ) : ℚ) * (m : ℚ) := by
    rw [← div_le_iff₀ hmq]
    exact le_trans h1 h2
  exact_mod_cast h3

lemma split_entries_le (t p m : ℤ) (hp : 1 ≤ p) (ht : 0 ≤ t) (htot : t ≤ p * m) :
    ∀ w ∈ _split_pixel_counts t p, w ≤ m := by
  have hp0 : (0 : ℤ) ≤ p := by omega
  have hppos : (0 : ℤ) < p := by omega
  have hdm : t / p ≤ m := by
    have h1 : t / p ≤ (p * m) / p := Int.ediv_le_ediv hppos htot
    rwa [Int.mul_ediv_cancel_left m (by omega)] at h1
  intro w hw
  unfold _split_pixel_counts at hw
  obtain ⟨i, hi, rfl⟩ := List.mem_map.mp hw
  rw [Int.fmod_eq_emod _ hp0, Int.fdiv_eq_ediv _ hp0]
  split_ifs with hcase
  · have hr1 : 1 ≤ t % p := by
      have hnn : (0 : ℤ) ≤ (i : ℤ) := Int.natCast_nonneg i
      omega
    by_contra hgt
    push_neg at hgt
    have heq : t / p = m := by omega
    have hdm2 := Int.ediv_add_emod t p
    rw [heq] at hdm2
    linarith
  · exact hdm

lemma split_entries_nonneg (t p : ℤ) (hp : 1 ≤ p) (ht : 0 ≤ t) :
    ∀ w ∈ _split_pixel_counts t p, 0 ≤ w := by
  have hp0 : (0 : ℤ) ≤ p := by omega
  have hbase : 0 ≤ t / p := Int.ediv_nonneg ht hp0
  intro w hw
  unfold _split_pixel_counts at hw
  obtain ⟨i, hi, rfl⟩ := List.mem_map.mp hw
  rw [Int.fdiv_eq_ediv _ hp0]
  split_ifs <;> omega

/-! ### Branch equations of `create_aligned_bounding_box` -/

lemma create_single_eq (g : GeoData) (gc : ℤ → ℚ × ℚ) (mp : ℤ)
    (hin : g.width_px gc ≤ mp ∧ g.height_px gc ≤ mp) :
    g.create_aligned_bounding_box gc mp =
      .ok [⟨1, Nat.repr 1, g.width_px gc, g.height_px gc,
        ⟨(g.alignedX gc).1, (g.alignedY gc).1, (g.alignedX gc).2, (g.alignedY gc).2⟩⟩] := by
  unfold GeoData.create_aligned_bounding_box
  rw [if_pos hin]
  rfl

lemma create_split_eq (g : GeoData) (gc : ℤ → ℚ × ℚ) (mp : ℤ)
    (hin : ¬(g.width_px gc ≤ mp ∧ g.height_px gc ≤ mp)) (hmp : mp ≠ 0) :
    g.create_aligned_bounding_box gc mp =
      .ok (numberRecordsFrom 1 (outerLoop g.resolution_x g.resolution_y (g.alignedX gc).1
        (_split_pixel_counts (g.width_px gc) (g.tiles_x gc mp))
        (g.alignedY gc).1
        (_split_pixel_counts (g.height_px gc) (g.tiles_y gc mp)))) := by
  unfold GeoData.create_aligned_bounding_box
  rw [if_neg hin, if_neg hmp]

lemma numberRecordsFrom_one_id (gs : List Geom) (m : ℕ)
    (hm' : m < (numberRecordsFrom 1 gs).length) :
    (numberRecordsFrom 1 gs)[m].id = m + 1 ∧
    (numberRecordsFrom 1 gs)[m].identifier = Nat.repr (m + 1) := by
  have hm : m < gs.length := by
    rw [numberRecordsFrom_length] at hm'
    exact hm'
  rw [numberRecordsFrom_getElem 1 gs m hm hm', Nat.add_comm 1 m]
  exact ⟨rfl, rfl⟩

/-- C5: in every successful result of `create_aligned_bounding_box`, the id of
the record at position `m` of the emission order (row-major: inner loop over
the width partition, outer loop over the height partition) is `m + 1`, so ids
are exactly `1, 2, ..., n`, and each identifier string is the decimal
rendering of the id. -/
theorem c5_ids_sequential (g : GeoData) (gc : ℤ → ℚ × ℚ) (mp : ℤ) (l : List Record)
    (hok : g.create_aligned_bounding_box gc mp = Except.ok l) :
    ∀ (m : ℕ) (hm : m < l.length),
      l[m].id = m + 1 ∧ l[m].identifier = Nat.repr (l[m].id) := by
  have hall : ∀ gs : List Geom, l = numberRecordsFrom 1 gs →
      ∀ (m : ℕ) (hm : m < l.length),
        l[m].id = m + 1 ∧ l[m].identifier = Nat.repr (l[m].id) := by
    rintro gs rfl m hm
    obtain ⟨h1, h2⟩ := numberRecordsFrom_one_id gs m hm
    rw [h1, h2]
    exact ⟨rfl, rfl⟩
  unfold GeoData.create_aligned_bounding_box at hok
  split_ifs at hok with h1 h2
  · injection hok with h
    exact hall _ h.symm
  · injection hok with h
    exact hall _ h.symm

/-- The spec's worked example: extent `(5, 5, 25, 15)` in EPSG:3035 at
resolution `(10, 10)`. -/
def exampleFile : InputFile := ⟨⟨5, 5, 25, 15⟩, some 3035⟩

/-- The `GeoData` state built from `exampleFile`. -/
def exampleGeo : GeoData := ⟨exampleFile, 3035, ⟨5, 5, 25, 15⟩, 10, 10, 3035⟩

/-- A Grid Origin Resolver placing the pixel-center origin at `(5, 5)`, so the
pixel-edge grid is anchored at `(0, 0)`. -/
def exampleGc : ℤ → ℚ × ℚ := fun _ => (5, 5)

/-- The two records emitted for the example extent with `max_pixels = 2`:
widths `[2, 1]`, heights `[2]`. -/
def exampleSplitRecords : List Record :=
  [⟨1, "1", 2, 2, ⟨0, 0, 20, 20⟩⟩, ⟨2, "2", 1, 2, ⟨20, 0, 30, 20⟩⟩]

/-- C5 witness: the example split result has ids `1, 2` with matching decimal
identifiers. -/
theorem c5_ids_sequential_witness :
    exampleGeo.create_aligned_bounding_box exampleGc 2 = Except.ok exampleSplitRecords ∧
    ∀ (m : ℕ) (hm : m < exampleSplitRecords.length),
      exampleSplitRecords[m].id = m + 1 ∧
      exampleSplitRecords[m].identifier = Nat.repr (exampleSplitRecords[m].id) :=
  have hok : exampleGeo.create_aligned_bounding_box exampleGc 2
      = Except.ok exampleSplitRecords := by
    with_unfolding_all rfl
  ⟨hok, c5_ids_sequential exampleGeo exampleGc 2 exampleSplitRecords hok⟩

lemma records_getElem (rx ry x0 y0 : ℚ) (ws hs : List ℤ) (m : ℕ)
    (hm : m < (numberRecordsFrom 1 (outerLoop rx ry x0 ws y0 hs)).length)
    (hj : m % ws.length < ws.length) (hi : m / ws.length < hs.length) :
    (numberRecordsFrom 1 (outerLoop rx ry x0 ws y0 hs))[m]
      = ⟨m + 1, Nat.repr (m + 1), ws[m % ws.length], hs[m / ws.length],
          ⟨cum x0 rx ws (m % ws.length), cum y0 ry hs (m / ws.length),
           cum x0 rx ws (m % ws.length + 1), cum y0 ry hs (m / ws.length + 1)⟩⟩ := by
  have hm1 : m < (outerLoop rx ry x0 ws y0 hs).length := by
    rwa [numberRecordsFrom_length] at hm
  rw [numberRecordsFrom_getElem 1 _ m hm1 hm]
  have hdecomp : (m / ws.length) * ws.length + m % ws.length = m := by
    rw [mul_comm]
    exact Nat.div_add_mod m ws.length
  have hm2 : (m / ws.length) * ws.length + m % ws.length
      < (outerLoop rx ry x0 ws y0 hs).length := by
    rw [hdecomp]
    exact hm1
  rw [getElem_idx_congr _ hm1 hdecomp.symm hm2,
    outerLoop_getElem rx ry x0 ws y0 hs (m / ws.length) (m % ws.length) hi hj hm2,
    Nat.add_comm 1 m]

lemma mem_of_records (rx ry x0 y0 : ℚ) (ws hs : List ℤ) (r : Record)
    (hr : r ∈ numberRecordsFrom 1 (outerLoop rx ry x0 ws y0 hs)) :
    ∃ i j, ∃ (hi : i < hs.length) (hj : j < ws.length),
      r.width = ws[j] ∧ r.height = hs[i] ∧
      r.geometry = ⟨cum x0 rx ws j, cum y0 ry hs i, cum x0 rx ws (j + 1), cum y0 ry hs (i + 1)⟩ := by
  obtain ⟨m, hm, rfl⟩ := List.mem_iff_getElem.mp hr
  have hm1 : m < (outerLoop rx ry x0 ws y0 hs).length := by
    rwa [numberRecordsFrom_length] at hm
  have hmlen : m < hs.length * ws.length := by
    rwa [outerLoop_length] at hm1
  have hws : 0 < ws.length := by
    rcases Nat.eq_zero_or_pos ws.length with h0 | h0
    · rw [h0, Nat.mul_zero] at hmlen
      omega
    · exact h0
  have hj : m % ws.length < ws.length := Nat.mod_lt m hws
  have hi : m / ws.length < hs.length := by
    rw [Nat.div_lt_iff_lt_mul hws]
    exact hmlen
  rw [records_getElem rx ry x0 y0 ws hs m hm hj hi]
  exact ⟨m / ws.length, m % ws.length, hi, hj, rfl, rfl, rfl⟩

/-- C3: with `max_pixels ≥ 1`, `create_aligned_bounding_box` emits a single
record with dimensions `width_px × height_px` covering the whole aligned
bounding box when both fit, and otherwise exactly
`tiles_x * tiles_y` records, each at most `max_pixels` wide and at most
`max_pixels` high. -/
theorem c3_tiling_counts (g : GeoData) (gc : ℤ → ℚ × ℚ) (mp : ℤ)
    (hrx : 0 < g.resolution_x) (hry : 0 < g.resolution_y)
    (hbx : g.bounds.minx ≤ g.bounds.maxx) (hby : g.bounds.miny ≤ g.bounds.maxy)
    (hmp : 1 ≤ mp) :
    ∃ l, g.create_aligned_bounding_box gc mp = Except.ok l ∧
      ((g.width_px gc ≤ mp ∧ g.height_px gc ≤ mp) →
        l = [⟨1, Nat.repr 1, g.width_px gc, g.height_px gc,
          ⟨(g.alignedX gc).1, (g.alignedY gc).1, (g.alignedX gc).2, (g.alignedY gc).2⟩⟩]) ∧
      (¬(g.width_px gc ≤ mp ∧ g.height_px gc ≤ mp) →
        (l.length : ℤ) = g.tiles_x gc mp * g.tiles_y gc mp ∧
        ∀ rec ∈ l, rec.width ≤ mp ∧ rec.height ≤ mp) := by
  have hwnn : 0 ≤ g.width_px gc := (width_px_spec g gc hrx hbx).1
  have hhnn : 0 ≤ g.height_px gc := (height_px_spec g gc hry hby).1
  have htx1 : 1 ≤ g.tiles_x gc mp := le_max_left 1 _
  have hty1 : 1 ≤ g.tiles_y gc mp := le_max_left 1 _
  by_cases hin : g.width_px gc ≤ mp ∧ g.height_px gc ≤ mp
  · refine ⟨_, create_single_eq g gc mp hin, fun _ => rfl, fun hno => absurd hin hno⟩
  · refine ⟨_, create_split_eq g gc mp hin (by omega), fun hyes => absurd hyes hin, fun _ => ⟨?_, ?_⟩⟩
    · rw [numberRecordsFrom_length, outerLoop_length,
        split_pixel_counts_length, split_pixel_counts_length]
      push_cast [Int.toNat_of_nonneg (by omega : (0 : ℤ) ≤ g.tiles_x gc mp),
        Int.toNat_of_nonneg (by omega : (0 : ℤ) ≤ g.tiles_y gc mp)]
      ring
    · intro rec hrec
      obtain ⟨i, j, hi, hj, hvw, hvh, _⟩ := mem_of_records _ _ _ _ _ _ rec hrec
      constructor
      · rw [hvw]
        refine split_entries_le (g.width_px gc) (g.tiles_x gc mp) mp htx1 hwnn ?_ _
          (List.getElem_mem hj)
        exact tiles_mul_ge (g.width_px gc) mp hmp
      · rw [hvh]
        refine split_entries_le (g.height_px gc) (g.tiles_y gc mp) mp hty1 hhnn ?_ _
          (List.getElem_mem hi)
        exact tiles_mul_ge (g.height_px gc) mp hmp

/-- C3 witness at the example extent with `max_pixels = 2` (split into a
`2 × 1` grid of tiles of widths `[2, 1]`). -/
theorem c3_tiling_counts_witness :
    (0 : ℚ) < exampleGeo.resolution_x ∧ (0 : ℚ) < exampleGeo.resolution_y ∧
    exampleGeo.bounds.minx ≤ exampleGeo.bounds.maxx ∧
    exampleGeo.bounds.miny ≤ exampleGeo.bounds.maxy ∧ (1 : ℤ) ≤ 2 ∧
    ∃ l, exampleGeo.create_aligned_bounding_box exampleGc 2 = Except.ok l ∧
      ((exampleGeo.width_px exampleGc ≤ 2 ∧ exampleGeo.height_px exampleGc ≤ 2) →
        l = [⟨1, Nat.repr 1, exampleGeo.width_px exampleGc, exampleGeo.height_px exampleGc,
          ⟨(exampleGeo.alignedX exampleGc).1, (exampleGeo.alignedY exampleGc).1,
           (exampleGeo.alignedX exampleGc).2, (exampleGeo.alignedY exampleGc).2⟩⟩]) ∧
      (¬(exampleGeo.width_px exampleGc ≤ 2 ∧ exampleGeo.height_px exampleGc ≤ 2) →
        ((l.length : ℤ) = exampleGeo.tiles_x exampleGc 2 * exampleGeo.tiles_y exampleGc 2 ∧
        ∀ rec ∈ l, rec.width ≤ 2 ∧ rec.height ≤ 2)) :=
  ⟨by norm_num [exampleGeo], by norm_num [exampleGeo], by norm_num [exampleGeo],
    by norm_num [exampleGeo], by norm_num,
    c3_tiling_counts exampleGeo exampleGc 2 (by norm_num [exampleGeo])
      (by norm_num [exampleGeo]) (by norm_num [exampleGeo]) (by norm_num [exampleGeo])
      (by norm_num)⟩

/-- C10: in a split result every tile is itself grid-aligned: each of its four
edges lies a nonnegative integer number of resolution steps from the aligned
box's lower-left corner, and the number of steps across the tile equals its
recorded pixel width (resp. height). -/
theorem c10_tiles_grid_aligned (g : GeoData) (gc : ℤ → ℚ × ℚ) (mp : ℤ)
    (hrx : 0 < g.resolution_x) (hry : 0 < g.resolution_y)
    (hbx : g.bounds.minx ≤ g.bounds.maxx) (hby : g.bounds.miny ≤ g.bounds.maxy)
    (hmp : 1 ≤ mp)
    (hsplit : ¬(g.width_px gc ≤ mp ∧ g.height_px gc ≤ mp)) :
    ∃ l, g.create_aligned_bounding_box gc mp = Except.ok l ∧
      ∀ rec ∈ l, ∃ k1 k2 j1 j2 : ℤ,
        0 ≤ k1 ∧ k2 = k1 + rec.width ∧ 0 ≤ j1 ∧ j2 = j1 + rec.height ∧
        rec.geometry.minx = (g.alignedX gc).1 + (k1 : ℚ) * g.resolution_x ∧
        rec.geometry.maxx = (g.alignedX gc).1 + (k2 : ℚ) * g.resolution_x ∧
        rec.geometry.miny = (g.alignedY gc).1 + (j1 : ℚ) * g.resolution_y ∧
        rec.geometry.maxy = (g.alignedY gc).1 + (j2 : ℚ) * g.resolution_y := by
  have hwnn : 0 ≤ g.width_px gc := (width_px_spec g gc hrx hbx).1
  have hhnn : 0 ≤ g.height_px gc := (height_px_spec g gc hry hby).1
  have htx1 : 1 ≤ g.tiles_x gc mp := le_max_left 1 _
  have hty1 : 1 ≤ g.tiles_y gc mp := le_max_left 1 _
  have hwsnn := split_entries_nonneg (g.width_px gc) (g.tiles_x gc mp) htx1 hwnn
  have hhsnn := split_entries_nonneg (g.height_px gc) (g.tiles_y gc mp) hty1 hhnn
  refine ⟨_, create_split_eq g gc mp hsplit (by omega), ?_⟩
  intro rec hrec
  obtain ⟨i, j, hi, hj, hvw, hvh, hgeom⟩ := mem_of_records _ _ _ _ _ _ rec hrec
  refine ⟨((_split_pixel_counts (g.width_px gc) (g.tiles_x gc mp)).take j).sum,
    ((_split_pixel_counts (g.width_px gc) (g.tiles_x gc mp)).take (j + 1)).sum,
    ((_split_pixel_counts (g.height_px gc) (g.tiles_y gc mp)).take i).sum,
    ((_split_pixel_counts (g.height_px gc) (g.tiles_y gc mp)).take (i + 1)).sum,
    ?_, ?_, ?_, ?_, ?_, ?_, ?_, ?_⟩
  · exact List.sum_nonneg fun w hw => hwsnn w (List.take_subset j _ hw)
  · rw [hvw]
    exact List.sum_take_succ _ j hj
  · exact List.sum_nonneg fun w hw => hhsnn w (List.take_subset i _ hw)
  · rw [hvh]
    exact List.sum_take_succ _ i hi
  · rw [hgeom]; rfl
  · rw [hgeom]; rfl
  · rw [hgeom]; rfl
  · rw [hgeom]; rfl

/-- C10 witness at the example extent with `max_pixels = 2`. -/
theorem c10_tiles_grid_aligned_witness :
    (0 : ℚ) < exampleGeo.resolution_x ∧ (0 : ℚ) < exampleGeo.resolution_y ∧
    exampleGeo.bounds.minx ≤ exampleGeo.bounds.maxx ∧
    exampleGeo.bounds.miny ≤ exampleGeo.bounds.maxy ∧ (1 : ℤ) ≤ 2 ∧
    ¬(exampleGeo.width_px exampleGc ≤ 2 ∧ exampleGeo.height_px exampleGc ≤ 2) ∧
    ∃ l, exampleGeo.create_aligned_bounding_box exampleGc 2 = Except.ok l ∧
      ∀ rec ∈ l, ∃ k1 k2 j1 j2 : ℤ,
        0 ≤ k1 ∧ k2 = k1 + rec.width ∧ 0 ≤ j1 ∧ j2 = j1 + rec.height ∧
        rec.geometry.minx = (exampleGeo.alignedX exampleGc).1 + (k1 : ℚ) * exampleGeo.resolution_x ∧
        rec.geometry.maxx = (exampleGeo.alignedX exampleGc).1 + (k2 : ℚ) * exampleGeo.resolution_x ∧
        rec.geometry.miny = (exampleGeo.alignedY exampleGc).1 + (j1 : ℚ) * exampleGeo.resolution_y ∧
        rec.geometry.maxy = (exampleGeo.alignedY exampleGc).1 + (j2 : ℚ) * exampleGeo.resolution_y :=
  have hsplit : ¬(exampleGeo.width_px exampleGc ≤ 2 ∧ exampleGeo.height_px exampleGc ≤ 2) := by
    have hw : exampleGeo.width_px exampleGc = 3 := by with_unfolding_all rfl
    rw [hw]
    simp
  ⟨by norm_num [exampleGeo], by norm_num [exampleGeo], by norm_num [exampleGeo],
    by norm_num [exampleGeo], by norm_num, hsplit,
    c10_tiles_grid_aligned exampleGeo exampleGc 2 (by norm_num [exampleGeo])
      (by norm_num [exampleGeo]) (by norm_num [exampleGeo]) (by norm_num [exampleGeo])
      (by norm_num) hsplit⟩

lemma cum_open_disjoint (a res : ℚ) (ws : List ℤ) (j j' : ℕ) (p : ℚ)
    (hw : ∀ w ∈ ws, 0 ≤ w) (hres : 0 ≤ res) (hne : j ≠ j')
    (h1 : cum a res ws j < p) (h2 : p < cum a res ws (j + 1))
    (h1' : cum a res ws j' < p) (h2' : p < cum a res ws (j' + 1)) : False := by
  rcases lt_or_gt_of_ne hne with h | h
  · have hle : cum a res ws (j + 1) ≤ cum a res ws j' :=
      cum_mono a res ws (j + 1) j' hw hres (by omega)
    linarith
  · have hle : cum a res ws (j' + 1) ≤ cum a res ws j :=
      cum_mono a res ws (j' + 1) j hw hres (by omega)
    linarith

/-- C2: in a split result the tiles have pairwise disjoint interiors,
horizontally and vertically adjacent tiles share identical boundary
coordinates, and the union of the (closed) tiles is exactly the aligned
bounding box that the unsplit branch would cover. -/
theorem c2_coverage_partition (g : GeoData) (gc : ℤ → ℚ × ℚ) (mp : ℤ)
    (hrx : 0 < g.resolution_x) (hry : 0 < g.resolution_y)
    (hbx : g.bounds.minx ≤ g.bounds.maxx) (hby : g.bounds.miny ≤ g.bounds.maxy)
    (hmp : 1 ≤ mp)
    (hsplit : ¬(g.width_px gc ≤ mp ∧ g.height_px gc ≤ mp)) :
    ∃ l, g.create_aligned_bounding_box gc mp = Except.ok l ∧
      (∀ p q : ℚ,
        ((g.alignedX gc).1 ≤ p ∧ p ≤ (g.alignedX gc).2 ∧
         (g.alignedY gc).1 ≤ q ∧ q ≤ (g.alignedY gc).2) ↔
        ∃ rec ∈ l, rec.geometry.minx ≤ p ∧ p ≤ rec.geometry.maxx ∧
          rec.geometry.miny ≤ q ∧ q ≤ rec.geometry.maxy) ∧
      (∀ (m m' : ℕ) (hm : m < l.length) (hm' : m' < l.length), m ≠ m' →
        ∀ p q : ℚ, ¬(l[m].geometry.minx < p ∧ p < l[m].geometry.maxx ∧
            l[m].geometry.miny < q ∧ q < l[m].geometry.maxy ∧
            l[m'].geometry.minx < p ∧ p < l[m'].geometry.maxx ∧
            l[m'].geometry.miny < q ∧ q < l[m'].geometry.maxy)) ∧
      (∀ (m : ℕ) (hm1 : m + 1 < l.length), (m + 1) % (g.tiles_x gc mp).toNat ≠ 0 →
        l[m].geometry.maxx = l[m + 1].geometry.minx ∧
        l[m].geometry.miny = l[m + 1].geometry.miny ∧
        l[m].geometry.maxy = l[m + 1].geometry.maxy) ∧
      (∀ (m : ℕ) (hmk : m + (g.tiles_x gc mp).toNat < l.length),
        l[m].geometry.maxy = l[m + (g.tiles_x gc mp).toNat].geometry.miny ∧
        l[m].geometry.minx = l[m + (g.tiles_x gc mp).toNat].geometry.minx ∧
        l[m].geometry.maxx = l[m + (g.tiles_x gc mp).toNat].geometry.maxx) := by
  have hwnn : 0 ≤ g.width_px gc := (width_px_spec g gc hrx hbx).1
  have hhnn : 0 ≤ g.height_px gc := (height_px_spec g gc hry hby).1
  have htx1 : 1 ≤ g.tiles_x gc mp := le_max_left 1 _
  have hty1 : 1 ≤ g.tiles_y gc mp := le_max_left 1 _
  set ws : List ℤ := _split_pixel_counts (g.width_px gc) (g.tiles_x gc mp) with hws_def
  set hs : List ℤ := _split_pixel_counts (g.height_px gc) (g.tiles_y gc mp) with hhs_def
  have hn : ws.length = (g.tiles_x gc mp).toNat := split_pixel_counts_length _ _
  have hnh : hs.length = (g.tiles_y gc mp).toNat := split_pixel_counts_length _ _
  have hws_pos : 0 < ws.length := by rw [hn]; omega
  have hhs_pos : 0 < hs.length := by rw [hnh]; omega
  have hwsnn : ∀ w ∈ ws, 0 ≤ w := split_entries_nonneg _ _ htx1 hwnn
  have hhsnn : ∀ w ∈ hs, 0 ≤ w := split_entries_nonneg _ _ hty1 hhnn
  have hXtop : cum (g.alignedX gc).1 g.resolution_x ws ws.length = (g.alignedX gc).2 := by
    rw [cum_length, split_pixel_counts_sum _ _ htx1]
    exact ((width_px_spec g gc hrx hbx).2).symm
  have hYtop : cum (g.alignedY gc).1 g.resolution_y hs hs.length = (g.alignedY gc).2 := by
    rw [cum_length, split_pixel_counts_sum _ _ hty1]
    exact ((height_px_spec g gc hry hby).2).symm
  refine ⟨numberRecordsFrom 1 (outerLoop g.resolution_x g.resolution_y (g.alignedX gc).1
      ws (g.alignedY gc).1 hs), create_split_eq g gc mp hsplit (by omega), ?_, ?_, ?_, ?_⟩
  all_goals
    have hlen : (numberRecordsFrom 1 (outerLoop g.resolution_x g.resolution_y (g.alignedX gc).1
        ws (g.alignedY gc).1 hs)).length = hs.length * ws.length := by
      rw [numberRecordsFrom_length, outerLoop_length]
    have hchar : ∀ (m : ℕ)
        (hm : m < (numberRecordsFrom 1 (outerLoop g.resolution_x g.resolution_y
          (g.alignedX gc).1 ws (g.alignedY gc).1 hs)).length),
        (numberRecordsFrom 1 (outerLoop g.resolution_x g.resolution_y (g.alignedX gc).1
          ws (g.alignedY gc).1 hs))[m].geometry
          = ⟨cum (g.alignedX gc).1 g.resolution_x ws (m % ws.length),
             cum (g.alignedY gc).1 g.resolution_y hs (m / ws.length),
             cum (g.alignedX gc).1 g.resolution_x ws (m % ws.length + 1),
             cum (g.alignedY gc).1 g.resolution_y hs (m / ws.length + 1)⟩ := by
      intro m hm
      have hmlen : m < hs.length * ws.length := by rwa [hlen] at hm
      have hj := Nat.mod_lt m hws_pos
      have hi : m / ws.length < hs.length := by
        rw [Nat.div_lt_iff_lt_mul hws_pos]
        exact hmlen
      rw [records_getElem _ _ _ _ _ _ m hm hj hi]
  · -- union of tiles equals the aligned bounding box
    intro p q
    constructor
    · rintro ⟨hp1, hp2, hq1, hq2⟩
      obtain ⟨j, hj, hpj1, hpj2⟩ := cum_cover ws (g.alignedX gc).1 g.resolution_x p
        (List.length_pos.mp hws_pos) hp1 (by rw [hXtop]; exact hp2)
      obtain ⟨i, hi, hqi1, hqi2⟩ := cum_cover hs (g.alignedY gc).1 g.resolution_y q
        (List.length_pos.mp hhs_pos) hq1 (by rw [hYtop]; exact hq2)
      have hm : i * ws.length + j < (numberRecordsFrom 1 (outerLoop g.resolution_x
          g.resolution_y (g.alignedX gc).1 ws (g.alignedY gc).1 hs)).length := by
        rw [hlen]
        calc i * ws.length + j < i * ws.length + ws.length := by omega
          _ = (i + 1) * ws.length := by rw [Nat.succ_mul]
          _ ≤ hs.length * ws.length := Nat.mul_le_mul_right ws.length (by omega)
      refine ⟨_, List.getElem_mem hm, ?_⟩
      have hmod : (i * ws.length + j) % ws.length = j := by
        rw [mul_comm, Nat.mul_add_mod]
        exact Nat.mod_eq_of_lt hj
      have hdiv : (i * ws.length + j) / ws.length = i := by
        rw [mul_comm, Nat.mul_add_div hws_pos, Nat.div_eq_of_lt hj]
        exact Nat.add_zero i
      rw [hchar _ hm, hmod, hdiv]
      exact ⟨hpj1, hpj2, hqi1, hqi2⟩
    · rintro ⟨rec, hrec, h1, h2, h3, h4⟩
      obtain ⟨i, j, hi, hj, _, _, hgeom⟩ := mem_of_records _ _ _ _ _ _ rec hrec
      rw [hgeom] at h1 h2 h3 h4
      dsimp only at h1 h2 h3 h4
      refine ⟨?_, ?_, ?_, ?_⟩
      · calc (g.alignedX gc).1 = cum (g.alignedX gc).1 g.resolution_x ws 0 :=
              (cum_zero _ _ _).symm
          _ ≤ cum (g.alignedX gc).1 g.resolution_x ws j :=
              cum_mono _ _ _ 0 j hwsnn hrx.le (by omega)
          _ ≤ p := h1
      · calc p ≤ cum (g.alignedX gc).1 g.resolution_x ws (j + 1) := h2
          _ ≤ cum (g.alignedX gc).1 g.resolution_x ws ws.length :=
              cum_mono _ _ _ (j + 1) ws.length hwsnn hrx.le (by omega)
          _ = (g.alignedX gc).2 := hXtop
      · calc (g.alignedY gc).1 = cum (g.alignedY gc).1 g.resolution_y hs 0 :=
              (cum_zero _ _ _).symm
          _ ≤ cum (g.alignedY gc).1 g.resolution_y hs i :=
              cum_mono _ _ _ 0 i hhsnn hry.le (by omega)
          _ ≤ q := h3
      · calc q ≤ cum (g.alignedY gc).1 g.resolution_y hs (i + 1) := h4
          _ ≤ cum (g.alignedY gc).1 g.resolution_y hs hs.length :=
              cum_mono _ _ _ (i + 1) hs.length hhsnn hry.le (by omega)
          _ = (g.alignedY gc).2 := hYtop
  · -- pairwise disjoint interiors
    intro m m' hm hm' hne p q habs
    obtain ⟨hA1, hA2, hA3, hA4, hB1, hB2, hB3, hB4⟩ := habs
    rw [hchar m hm] at hA1 hA2 hA3 hA4
    rw [hchar m' hm'] at hB1 hB2 hB3 hB4
    dsimp only at hA1 hA2 hA3 hA4 hB1 hB2 hB3 hB4
    by_cases hjj : m % ws.length = m' % ws.length
    · by_cases hii : m / ws.length = m' / ws.length
      · apply hne
        have e1 := Nat.div_add_mod m ws.length
        have e2 := Nat.div_add_mod m' ws.length
        rw [hii, hjj] at e1
        omega
      · exact cum_open_disjoint (g.alignedY gc).1 g.resolution_y hs
          (m / ws.length) (m' / ws.length) q hhsnn hry.le hii hA3 hA4 hB3 hB4
    · exact cum_open_disjoint (g.alignedX gc).1 g.resolution_x ws
        (m % ws.length) (m' % ws.length) p hwsnn hrx.le hjj hA1 hA2 hB1 hB2
  · -- horizontally adjacent tiles share their vertical edge
    intro m hm1 hcond
    rw [← hn] at hcond
    have hm : m < (numberRecordsFrom 1 (outerLoop g.resolution_x g.resolution_y
        (g.alignedX gc).1 ws (g.alignedY gc).1 hs)).length := by omega
    have hj := Nat.mod_lt m hws_pos
    have e0 := Nat.div_add_mod m ws.length
    rcases Nat.lt_or_ge (m % ws.length + 1) ws.length with hlt | hge
    · have e1 : m + 1 = ws.length * (m / ws.length) + (m % ws.length + 1) := by
        omega
      have hmod1 : (m + 1) % ws.length = m % ws.length + 1 := by
        rw [e1, Nat.mul_add_mod]
        exact Nat.mod_eq_of_lt hlt
      have hdiv1 : (m + 1) / ws.length = m / ws.length := by
        rw [e1, Nat.mul_add_div hws_pos, Nat.div_eq_of_lt hlt]
        exact Nat.add_zero _
      refine ⟨?_, ?_, ?_⟩ <;>
        rw [hchar m hm, hchar (m + 1) hm1] <;>
        dsimp only <;>
        simp only [hmod1, hdiv1]
    · exfalso
      apply hcond
      have e1 : m + 1 = (m / ws.length + 1) * ws.length := by
        rw [Nat.succ_mul, mul_comm]
        omega
      rw [e1, Nat.mul_mod_left]
  · -- vertically adjacent tiles share their horizontal edge
    intro m hmk
    have hm : m < (numberRecordsFrom 1 (outerLoop g.resolution_x g.resolution_y
        (g.alignedX gc).1 ws (g.alignedY gc).1 hs)).length := by omega
    have hmod : (m + (g.tiles_x gc mp).toNat) % ws.length = m % ws.length := by
      rw [← hn]
      exact Nat.add_mod_right m ws.length
    have hdiv : (m + (g.tiles_x gc mp).toNat) / ws.length = m / ws.length + 1 := by
      rw [← hn]
      exact Nat.add_div_right m hws_pos
    refine ⟨?_, ?_, ?_⟩ <;>
      rw [hchar m hm, hchar (m + (g.tiles_x gc mp).toNat) hmk] <;>
      dsimp only <;>
      simp only [hmod, hdiv]

/-- C2 witness at the example extent with `max_pixels = 2`. -/
theorem c2_coverage_partition_witness :
    (0 : ℚ) < exampleGeo.resolution_x ∧ (0 : ℚ) < exampleGeo.resolution_y ∧
    exampleGeo.bounds.minx ≤ exampleGeo.bounds.maxx ∧
    exampleGeo.bounds.miny ≤ exampleGeo.bounds.maxy ∧ (1 : ℤ) ≤ 2 ∧
    ¬(exampleGeo.width_px exampleGc ≤ 2 ∧ exampleGeo.height_px exampleGc ≤ 2) ∧
    ∃ l, exampleGeo.create_aligned_bounding_box exampleGc 2 = Except.ok l ∧
      (∀ p q : ℚ,
        ((exampleGeo.alignedX exampleGc).1 ≤ p ∧ p ≤ (exampleGeo.alignedX exampleGc).2 ∧
         (exampleGeo.alignedY exampleGc).1 ≤ q ∧ q ≤ (exampleGeo.alignedY exampleGc).2) ↔
        ∃ rec ∈ l, rec.geometry.minx ≤ p ∧ p ≤ rec.geometry.maxx ∧
          rec.geometry.miny ≤ q ∧ q ≤ rec.geometry.maxy) ∧
      (∀ (m m' : ℕ) (hm : m < l.length) (hm' : m' < l.length), m ≠ m' →
        ∀ p q : ℚ, ¬(l[m].geometry.minx < p ∧ p < l[m].geometry.maxx ∧
            l[m].geometry.miny < q ∧ q < l[m].geometry.maxy ∧
            l[m'].geometry.minx < p ∧ p < l[m'].geometry.maxx ∧
            l[m'].geometry.miny < q ∧ q < l[m'].geometry.maxy)) ∧
      (∀ (m : ℕ) (hm1 : m + 1 < l.length),
        (m + 1) % (exampleGeo.tiles_x exampleGc 2).toNat ≠ 0 →
        l[m].geometry.maxx = l[m + 1].geometry.minx ∧
        l[m].geometry.miny = l[m + 1].geometry.miny ∧
        l[m].geometry.maxy = l[m + 1].geometry.maxy) ∧
      (∀ (m : ℕ) (hmk : m + (exampleGeo.tiles_x exampleGc 2).toNat < l.length),
        l[m].geometry.maxy = l[m + (exampleGeo.tiles_x exampleGc 2).toNat].geometry.miny ∧
        l[m].geometry.minx = l[m + (exampleGeo.tiles_x exampleGc 2).toNat].geometry.minx ∧
        l[m].geometry.maxx = l[m + (exampleGeo.tiles_x exampleGc 2).toNat].geometry.maxx) :=
  have hsplit : ¬(exampleGeo.width_px exampleGc ≤ 2 ∧ exampleGeo.height_px exampleGc ≤ 2) := by
    have hw : exampleGeo.width_px exampleGc = 3 := by with_unfolding_all rfl
    rw [hw]
    simp
  ⟨by norm_num [exampleGeo], by norm_num [exampleGeo], by norm_num [exampleGeo],
    by norm_num [exampleGeo], by norm_num, hsplit,
    c2_coverage_partition exampleGeo exampleGc 2 (by norm_num [exampleGeo])
      (by norm_num [exampleGeo]) (by norm_num [exampleGeo]) (by norm_num [exampleGeo])
      (by norm_num) hsplit⟩

/-! ### Validation behaviour of the constructor and of `max_pixels` -/

/-- C6 counterexample: constructing `GeoData` with `resolution_x = 0` does
fail with the invalid-configuration error naming axis X and the value `0`,
but only after the input file has been read and its bounds computed — the
event trace of `__init__` already contains `boundsComputed` when the error is
raised, contradicting the claim that the failure happens before any
geometric computation. -/
theorem c6_resolution_before_bounds_counterexample :
    GeoData.init exampleFile 3035 0 10
      = ([Event.readFile, Event.boundsComputed], Except.error (InitErr.resolutionX 0)) ∧
    Event.boundsComputed ∈ (GeoData.init exampleFile 3035 0 10).1 := by
  constructor
  · with_unfolding_all rfl
  · with_unfolding_all decide

/-- C6 amended: constructing `GeoData` with a non-positive resolution fails
with an invalid-configuration error identifying the offending axis (X checked
first) and the offending value, but the failure occurs only after the input
geometry has been read and its bounds computed (geo.py lines 28-34 assign
`self.gdf` and `self.bounds` before `_validate_resolutions` runs). -/
theorem c6_resolution_validation_amended (file : InputFile) (epsg : ℤ) (rx ry : ℚ)
    (h : rx ≤ 0 ∨ ry ≤ 0) :
    (if rx ≤ 0 then (GeoData.init file epsg rx ry).2 = Except.error (InitErr.resolutionX rx)
     else (GeoData.init file epsg rx ry).2 = Except.error (InitErr.resolutionY ry)) ∧
    (GeoData.init file epsg rx ry).1 = [Event.readFile, Event.boundsComputed] := by
  unfold GeoData.init
  split_ifs with h1 h2
  · exact ⟨rfl, rfl⟩
  · exact ⟨rfl, rfl⟩
  · rcases h with h | h
    · exact absurd h h1
    · exact absurd h h2

/-- C6 amended witness at `resolution_x = 0`. -/
theorem c6_resolution_validation_amended_witness :
    ((0 : ℚ) ≤ 0 ∨ (10 : ℚ) ≤ 0) ∧
    ((if (0 : ℚ) ≤ 0 then
        (GeoData.init exampleFile 3035 0 10).2 = Except.error (InitErr.resolutionX 0)
      else (GeoData.init exampleFile 3035 0 10).2 = Except.error (InitErr.resolutionY 10)) ∧
      (GeoData.init exampleFile 3035 0 10).1 = [Event.readFile, Event.boundsComputed]) :=
  ⟨Or.inl (by norm_num),
    c6_resolution_validation_amended exampleFile 3035 0 10 (Or.inl (by norm_num))⟩

/-- C7 counterexample: calling `create_aligned_bounding_box` with the
non-positive `max_pixels = -1` raises no invalid-configuration error; it
returns a single output record covering the whole aligned bounding box. -/
theorem c7_max_pixels_counterexample :
    exampleGeo.create_aligned_bounding_box exampleGc (-1)
      = Except.ok [⟨1, "1", 3, 2, ⟨0, 0, 30, 20⟩⟩] := by
  with_unfolding_all rfl

/-- C7 amended: `create_aligned_bounding_box` performs no validation of
`max_pixels`.  For `max_pixels < 0` it emits records (a single `1 × 1` tiling
covering the aligned bounding box, because both `tiles_x` and `tiles_y` clamp
to 1); only for `max_pixels = 0` with a positive pixel dimension does it fail,
and then with a division-by-zero error from geo.py line 120, not an
invalid-configuration error. -/
theorem c7_max_pixels_amended (g : GeoData) (gc : ℤ → ℚ × ℚ) (mp : ℤ)
    (hrx : 0 < g.resolution_x) (hry : 0 < g.resolution_y)
    (hbx : g.bounds.minx ≤ g.bounds.maxx) (hby : g.bounds.miny ≤ g.bounds.maxy) :
    (mp < 0 → ∃ l, g.create_aligned_bounding_box gc mp = Except.ok l ∧ l.length = 1) ∧
    (mp = 0 → 0 < g.width_px gc →
      g.create_aligned_bounding_box gc mp = Except.error CreateErr.zeroDivisionError) := by
  have hw0 : 0 ≤ g.width_px gc := (width_px_spec g gc hrx hbx).1
  have hh0 : 0 ≤ g.height_px gc := (height_px_spec g gc hry hby).1
  constructor
  · intro hneg
    have hnot : ¬(g.width_px gc ≤ mp ∧ g.height_px gc ≤ mp) := by
      rintro ⟨h1, _⟩
      omega
    have hmpq : ((mp : ℚ)) ≤ 0 := by exact_mod_cast hneg.le
    have htx : g.tiles_x gc mp = 1 := by
      unfold GeoData.tiles_x
      have hdiv : (g.width_px gc : ℚ) / (mp : ℚ) ≤ 0 := by
        rw [div_nonpos_iff]
        exact Or.inl ⟨by exact_mod_cast hw0, hmpq⟩
      have hceil : ⌈(g.width_px gc : ℚ) / (mp : ℚ)⌉ ≤ 0 := by
        rw [Int.ceil_le]
        exact_mod_cast hdiv
      exact max_eq_left (by omega)
    have hty : g.tiles_y gc mp = 1 := by
      unfold GeoData.tiles_y
      have hdiv : (g.height_px gc : ℚ) / (mp : ℚ) ≤ 0 := by
        rw [div_nonpos_iff]
        exact Or.inl ⟨by exact_mod_cast hh0, hmpq⟩
      have hceil : ⌈(g.height_px gc : ℚ) / (mp : ℚ)⌉ ≤ 0 := by
        rw [Int.ceil_le]
        exact_mod_cast hdiv
      exact max_eq_left (by omega)
    refine ⟨_, create_split_eq g gc mp hnot (by omega), ?_⟩
    rw [numberRecordsFrom_length, outerLoop_length,
      split_pixel_counts_length, split_pixel_counts_length, htx, hty]
    rfl
  · intro h0 hwpos
    subst h0
    have hnot : ¬(g.width_px gc ≤ 0 ∧ g.height_px gc ≤ 0) := by
      rintro ⟨h1, _⟩
      omega
    unfold GeoData.create_aligned_bounding_box
    rw [if_neg hnot, if_pos rfl]

/-- C7 amended witness: the example input with `max_pixels = -1` yields one
record rather than an error. -/
theorem c7_max_pixels_amended_witness :
    (0 : ℚ) < exampleGeo.resolution_x ∧ (0 : ℚ) < exampleGeo.resolution_y ∧
    exampleGeo.bounds.minx ≤ exampleGeo.bounds.maxx ∧
    exampleGeo.bounds.miny ≤ exampleGeo.bounds.maxy ∧
    (((-1 : ℤ) < 0 → ∃ l, exampleGeo.create_aligned_bounding_box exampleGc (-1)
        = Except.ok l ∧ l.length = 1) ∧
      ((-1 : ℤ) = 0 → 0 < exampleGeo.width_px exampleGc →
        exampleGeo.create_aligned_bounding_box exampleGc (-1)
          = Except.error CreateErr.zeroDivisionError)) :=
  ⟨by norm_num [exampleGeo], by norm_num [exampleGeo], by norm_num [exampleGeo],
    by norm_num [exampleGeo],
    c7_max_pixels_amended exampleGeo exampleGc (-1) (by norm_num [exampleGeo])
      (by norm_num [exampleGeo]) (by norm_num [exampleGeo]) (by norm_num [exampleGeo])⟩

/-- C8: when the input collection has a determinable CRS code that differs
from the declared target code (and the resolutions pass the checks that
precede the CRS check), constructing `GeoData` fails with a CRS-mismatch
error carrying both the detected and the declared codes; the pure constructor
performs no transformation of the input. -/
theorem c8_crs_mismatch (file : InputFile) (epsg : ℤ) (rx ry : ℚ) (c : ℤ)
    (hrx : 0 < rx) (hry : 0 < ry) (hc : file.crs_to_epsg = some c) (hne : c ≠ epsg) :
    (GeoData.init file epsg rx ry).2 = Except.error (InitErr.epsgMismatch c epsg) := by
  unfold GeoData.init
  rw [hc, if_neg (not_le.mpr hrx), if_neg (not_le.mpr hry)]
  dsimp only
  rw [if_pos hne]

/-- The spec's CRS-mismatch scenario: a file in EPSG:4326. -/
def exampleFile4326 : InputFile := ⟨⟨5, 5, 25, 15⟩, some 4326⟩

/-- C8 witness: an EPSG:4326 input declared as EPSG:3035 fails with a
mismatch error naming both codes. -/
theorem c8_crs_mismatch_witness :
    (0 : ℚ) < 10 ∧ exampleFile4326.crs_to_epsg = some 4326 ∧ (4326 : ℤ) ≠ 3035 ∧
    (GeoData.init exampleFile4326 3035 10 10).2
      = Except.error (InitErr.epsgMismatch 4326 3035) :=
  ⟨by norm_num, rfl, by decide,
    c8_crs_mismatch exampleFile4326 3035 10 10 4326 (by norm_num) (by norm_num) rfl
      (by decide)⟩
